import Mathlib

/-!
# Verification of the benchmark-result analysis pipeline

A shallow embedding of the log-parsing and statistical-correction pipeline of
the benchmark-results repository (regex-based line parsing, calibration-overhead
subtraction, robust aggregation), together with theorems settling the frozen
claims about it.

Conventions of the embedding:
* Python floats holding the (integer-valued) counter data are modelled as `ℚ`.
* A line of text is a `List Char`; a whole file is a `String` split on `'\n'`
  (Python's line iteration followed by `str.strip` makes the two equivalent).
* `re.match`/`re.search` on the fixed label patterns of the scripts are
  modelled by explicit character-list matchers: a literal label, an optional
  literal " Count", a colon, `\s+` or `\s*`, then a maximal nonempty digit
  run (the captured group).  `re.search` tries every start position from the
  left, as the backtracking engine does.
* Missing values (Python `None` keys / numpy `nan`) are modelled by `Option`.
* A raising Python function (`statistics.mean` on an empty list) is modelled
  with `Except`.
-/

namespace BenchAnalysis

/-! ## Character-list utilities (Python `str.strip`, prefixes, digit runs) -/

/-- Python `str.strip()`: drop whitespace from both ends of a line. -/
def pyStrip (l : List Char) : List Char :=
  ((l.dropWhile Char.isWhitespace).reverse.dropWhile Char.isWhitespace).reverse

/-- Drop a literal pattern from the front of a character list, returning the
remainder, or `none` when the pattern is not a prefix of the list. -/
def dropLit : List Char → List Char → Option (List Char)
  | [], l => some l
  | _ :: _, [] => none
  | p :: ps, c :: cs => if p = c then dropLit ps cs else none

/-- Python `str.startswith` on a character list. -/
def startsWithCl (p : String) (l : List Char) : Bool :=
  (dropLit p.toList l).isSome

/-- The numeric value of a digit run (the regex group `(\d+)`). -/
def natOfDigits (ds : List Char) : ℕ :=
  ds.foldl (fun a c => 10 * a + (c.toNat - 48)) 0

/-- Match the tail `\s+(\d+)` (when `requireWs` is `true`) or `\s*(\d+)`
(when it is `false`) at the start of `rest`, returning the captured number.
The digit run is maximal, as for a greedy `\d+`; trailing characters are
ignored, as for an unanchored pattern end. -/
def matchNumAfter (requireWs : Bool) (rest : List Char) : Option ℕ :=
  let ws := rest.takeWhile Char.isWhitespace
  if requireWs ∧ ws.isEmpty then none
  else
    let r := rest.dropWhile Char.isWhitespace
    let ds := r.takeWhile Char.isDigit
    if ds.isEmpty then none else some (natOfDigits ds)

/-- `re.match r'<label>(?: Count)?:\s+(\d+)'` on a line: the metric-label
pattern shared by `parse_pmu_metrics`, `parse_calibration_file` and
`parse_inheritance_file`, tolerating one optional extra literal word
" Count" between label and colon.  The two prefix alternatives are mutually
exclusive (the character after the label differs), so trying them in
sequence is exactly the backtracking semantics. -/
def matchLabelTol (label : String) (line : List Char) : Option ℕ :=
  match dropLit (label ++ " Count:").toList line with
  | some rest => matchNumAfter true rest
  | none =>
    match dropLit (label ++ ":").toList line with
    | some rest => matchNumAfter true rest
    | none => none

/-- `re.search`: try the anchored matcher `f` at every start position from
the left and return the first success.  (The patterns used here all begin
with a literal, so they never match the empty suffix.) -/
def searchFrom (f : List Char → Option ℕ) : List Char → Option ℕ
  | [] => none
  | c :: t =>
    match f (c :: t) with
    | some v => some v
    | none => searchFrom f t

/-- `re.search r'<lit>\s*(\d+)'` for a literal label `lit` (used by
`parse_overall_performance` and by the cycle pattern of `parse_sync_file`,
neither of which tolerates an extra " Count"). -/
def searchLit (lit : String) (s : List Char) : Option ℕ :=
  searchFrom (fun l => (dropLit lit.toList l).bind (matchNumAfter false)) s

/-- `re.search r'<label>(?: Count)?:\s*(\d+)'`: the tolerant label pattern
with `\s*`, searched anywhere in a section (used by `parse_sync_file` for
the ICache/DCache metrics). -/
def searchLabelTol (label : String) (s : List Char) : Option ℕ :=
  searchFrom
    (fun l =>
      match dropLit (label ++ " Count:").toList l with
      | some rest => matchNumAfter false rest
      | none =>
        match dropLit (label ++ ":").toList l with
        | some rest => matchNumAfter false rest
        | none => none)
    s

/-- Split a file's text into its lines, as Python's line iteration does. -/
def linesOfString (s : String) : List (List Char) :=
  s.toList.splitOn '\n'

/-! ## Shared statistics helpers -/

/-- `np.mean` on a nonempty list (arithmetic mean).  On `[]` this is `0/0 = 0`
in `ℚ`; every use below guards the empty case exactly where the source does. -/
def mean (l : List ℚ) : ℚ := l.sum / (l.length : ℚ)

/-- Python `min` over a nonempty list (`0` as an unused default for `[]`). -/
def listMin : List ℚ → ℚ
  | [] => 0
  | x :: xs => xs.foldl min x

/-- Python `max` over a nonempty list (`0` as an unused default for `[]`). -/
def listMax : List ℚ → ℚ
  | [] => 0
  | x :: xs => xs.foldl max x

/-- `np.sort`: the values in ascending order. -/
def sortAsc (l : List ℚ) : List ℚ := l.insertionSort (· ≤ ·)

/-- `np.median`: middle of the sorted values, or the mean of the two middle
values for even length.  (Only applied to nonempty series by the scripts.) -/
def medianQ (l : List ℚ) : ℚ :=
  let s := sortAsc l
  let n := s.length
  if n = 0 then 0
  else if n % 2 = 1 then s.getD (n / 2) 0
  else (s.getD (n / 2 - 1) 0 + s.getD (n / 2) 0) / 2

/-- `robust_average(values, trim_fraction=0.1)` as defined identically in
`default_tests/context_switching_test/analyse_and_plot.py` and
`inheritance_test/analye_and_plot.py`: trimmed mean at the default trim
fraction 0.1.  `trim_count = int(n * 0.1)` is `⌊n / 10⌋` for the integer
lengths arising here; the guard `n - 2 * trim_count <= 0` is evaluated over
`ℤ` as in Python. -/
def robust_average (values : List ℚ) : ℚ :=
  let n := values.length
  if n = 0 then 0
  else
    let trimCount := n / 10
    if (n : ℤ) - 2 * (trimCount : ℤ) ≤ 0 then mean values
    else mean (((sortAsc values).drop trimCount).take (n - 2 * trimCount))

/-- `compute_stats(values)` of the context-switching script: `(average,
minimum, maximum)`, all `0` on the empty list. -/
def compute_stats (values : List ℚ) : ℚ × ℚ × ℚ :=
  if values.isEmpty then (0, 0, 0)
  else (mean values, listMin values, listMax values)

/-- The jitter computation of `main` in the context-switching script
(lines 386–389): `jitter_total = max - min`, and
`jitter_pct = jitter_total / avg_overall * 100 if avg_overall else 0`,
where `avg_overall` is the plain mean returned by `compute_stats`. -/
def jitter_stats (values : List ℚ) : ℚ × ℚ :=
  let s := compute_stats values
  let jt := s.2.2 - s.2.1
  (jt, if s.1 ≠ 0 then jt / s.1 * 100 else 0)

/-! ## The PMU profile-block parser

`parse_pmu_metrics(filename, calibration)` of
`default_tests/context_switching_test/analyse_and_plot.py` (lines 117–156).
The measurement loop of `parse_inheritance_file` in
`inheritance_test/analye_and_plot.py` (lines 99–130) is line-for-line the
same state machine (including the end-of-file truthiness check), so the
definitions below embed both.
-/

/-- A calibration profile: one overhead value per PMU metric. -/
structure Calibration where
  cycle : ℚ
  icache : ℚ
  dcache_access : ℚ
  dcache_miss : ℚ
deriving DecidableEq, Repr

/-- The zero-overhead calibration profile substituted for a missing
calibration file. -/
def zeroCalibration : Calibration := ⟨0, 0, 0, 0⟩

/-- One measurement record: the optional corrected value per PMU metric
(a Python dict with optional keys). -/
structure PmuRecord where
  cycle : Option ℚ
  icache : Option ℚ
  dcache_access : Option ℚ
  dcache_miss : Option ℚ
deriving DecidableEq, Repr

/-- The record a delimiter line starts: the empty dict. -/
def emptyRecord : PmuRecord := ⟨none, none, none, none⟩

/-- Python dict truthiness of a record: `true` iff no metric is set. -/
def PmuRecord.isEmptyRec (r : PmuRecord) : Bool :=
  r.cycle.isNone && r.icache.isNone && r.dcache_access.isNone && r.dcache_miss.isNone

/-- The values present in a record. -/
def PmuRecord.vals (r : PmuRecord) : List ℚ :=
  [r.cycle, r.icache, r.dcache_access, r.dcache_miss].filterMap id

/-- The overhead correction applied at store time:
`max(float(group) - calibration[key], 0)`. -/
def correct (overhead : ℚ) (v : ℕ) : ℚ := max ((v : ℚ) - overhead) 0

/-- A line is a profile-block delimiter:
`line.startswith("Profile Point:") or line.startswith("Profile Entry:")`. -/
def isDelim (line : List Char) : Bool :=
  startsWithCl "Profile Point:" line || startsWithCl "Profile Entry:" line

/-- Process one (already stripped) non-delimiter line against the four
metric-label patterns, in the source's order, storing the corrected value
on the first match (last write wins across lines since the field is
overwritten). -/
def applyMetricLine (cal : Calibration) (r : PmuRecord) (line : List Char) : PmuRecord :=
  match matchLabelTol "Cycle Count" line with
  | some v => { r with cycle := some (correct cal.cycle v) }
  | none =>
    match matchLabelTol "ICache Miss" line with
    | some v => { r with icache := some (correct cal.icache v) }
    | none =>
      match matchLabelTol "DCache Access" line with
      | some v => { r with dcache_access := some (correct cal.dcache_access v) }
      | none =>
        match matchLabelTol "DCache Miss" line with
        | some v => { r with dcache_miss := some (correct cal.dcache_miss v) }
        | none => r

/-- One step of the parser's state machine.  The state is the pending
record (`current`, `none` before the first delimiter) and the emitted
records so far.  A delimiter line emits the pending record — even an empty
one — and starts a new empty record. -/
def pmuStep (cal : Calibration) (st : Option PmuRecord × List PmuRecord)
    (rawLine : List Char) : Option PmuRecord × List PmuRecord :=
  let line := pyStrip rawLine
  if isDelim line then
    match st.1 with
    | some r => (some emptyRecord, st.2 ++ [r])
    | none => (some emptyRecord, st.2)
  else
    match st.1 with
    | none => st
    | some r => (some (applyMetricLine cal r line), st.2)

/-- End of file: `if current: measurements.append(current)` — the pending
record is emitted only when it is a nonempty dict. -/
def finalizePmu (st : Option PmuRecord × List PmuRecord) : List PmuRecord :=
  match st.1 with
  | some r => if r.isEmptyRec then st.2 else st.2 ++ [r]
  | none => st.2

/-- `parse_pmu_metrics`: fold the state machine over the lines and apply
the end-of-file rule. -/
def parse_pmu_metrics (lines : List (List Char)) (cal : Calibration) : List PmuRecord :=
  finalizePmu (lines.foldl (pmuStep cal) (none, []))

/-! ### Spec-side companions of the block parser

`rawRecord` / `parseRawBlocks` give the *raw parsed values* — the same
state machine with the overhead correction removed — used to state C9's
"CorrectedRecord values equal the raw values unchanged", and `blocksOf` /
`parseBlock` give the delimiter decomposition of the input used to state
C6's order preservation. -/

/-- A record of raw (uncorrected) parsed counter values. -/
structure RawRecord where
  cycle : Option ℕ
  icache : Option ℕ
  dcache_access : Option ℕ
  dcache_miss : Option ℕ
deriving DecidableEq, Repr

def emptyRawRecord : RawRecord := ⟨none, none, none, none⟩

def RawRecord.isEmptyRec (r : RawRecord) : Bool :=
  r.cycle.isNone && r.icache.isNone && r.dcache_access.isNone && r.dcache_miss.isNone

/-- Interpret a raw record through a calibration profile, correcting each
present value. -/
def correctRecord (cal : Calibration) (r : RawRecord) : PmuRecord :=
  ⟨r.cycle.map (correct cal.cycle), r.icache.map (correct cal.icache),
   r.dcache_access.map (correct cal.dcache_access), r.dcache_miss.map (correct cal.dcache_miss)⟩

def applyMetricLineRaw (r : RawRecord) (line : List Char) : RawRecord :=
  match matchLabelTol "Cycle Count" line with
  | some v => { r with cycle := some v }
  | none =>
    match matchLabelTol "ICache Miss" line with
    | some v => { r with icache := some v }
    | none =>
      match matchLabelTol "DCache Access" line with
      | some v => { r with dcache_access := some v }
      | none =>
        match matchLabelTol "DCache Miss" line with
        | some v => { r with dcache_miss := some v }
        | none => r

def pmuStepRaw (st : Option RawRecord × List RawRecord) (rawLine : List Char) :
    Option RawRecord × List RawRecord :=
  let line := pyStrip rawLine
  if isDelim line then
    match st.1 with
    | some r => (some emptyRawRecord, st.2 ++ [r])
    | none => (some emptyRawRecord, st.2)
  else
    match st.1 with
    | none => st
    | some r => (some (applyMetricLineRaw r line), st.2)

def finalizeRaw (st : Option RawRecord × List RawRecord) : List RawRecord :=
  match st.1 with
  | some r => if r.isEmptyRec then st.2 else st.2 ++ [r]
  | none => st.2

/-- The raw parsed records of an input (the parser with correction removed). -/
def parseRawBlocks (lines : List (List Char)) : List RawRecord :=
  finalizeRaw (lines.foldl pmuStepRaw (none, []))

/-- A raw record viewed as a `PmuRecord` with every value unchanged (cast
to `ℚ`): the spec's reading of "CorrectedRecord values equal the raw parsed
values". -/
def ratRecord (r : RawRecord) : PmuRecord :=
  ⟨r.cycle.map (fun n => (n : ℚ)), r.icache.map (fun n => (n : ℚ)),
   r.dcache_access.map (fun n => (n : ℚ)), r.dcache_miss.map (fun n => (n : ℚ))⟩

/-- A raw parser state interpreted through a calibration profile. -/
def castStateRaw (cal : Calibration) (st : Option RawRecord × List RawRecord) :
    Option PmuRecord × List PmuRecord :=
  (st.1.map (correctRecord cal), st.2.map (correctRecord cal))

/-- A (stripped) line matches at least one of the four metric-label
patterns. -/
def recognizesMetric (line : List Char) : Bool :=
  (matchLabelTol "Cycle Count" line).isSome || (matchLabelTol "ICache Miss" line).isSome ||
    (matchLabelTol "DCache Access" line).isSome || (matchLabelTol "DCache Miss" line).isSome

/-- Block decomposition of the input: one block per delimiter line, holding
the stripped lines that follow it up to the next delimiter or end of file
(lines before the first delimiter belong to no block). -/
def blkStep (st : Option (List (List Char)) × List (List (List Char)))
    (rawLine : List Char) : Option (List (List Char)) × List (List (List Char)) :=
  let line := pyStrip rawLine
  if isDelim line then
    match st.1 with
    | some b => (some [], st.2 ++ [b])
    | none => (some [], st.2)
  else
    match st.1 with
    | none => st
    | some b => (some (b ++ [line]), st.2)

def blocksOf (lines : List (List Char)) : List (List (List Char)) :=
  match lines.foldl blkStep (none, []) with
  | (some b, bs) => bs ++ [b]
  | (none, bs) => bs

/-- The record a single block parses to. -/
def parseBlock (cal : Calibration) (b : List (List Char)) : PmuRecord :=
  b.foldl (applyMetricLine cal) emptyRecord

/-! ## `parse_overall_performance`

Lines 87–111 of `default_tests/context_switching_test/analyse_and_plot.py`,
identical in `default_tests/critical_section_test/analyse_and_plot.py`
(lines 85–109).  A "Relative Time" value is held pending; a "Time Period
Total" value pairs with it and consumes it; an unpaired "Time Period Total"
is dropped.  The `'Relative Time:' in line` substring guards of the source
are redundant with the searches (the pattern contains the literal), so the
step is driven by the search results directly. -/

def popStep (st : Option ℕ × List ℕ × List ℕ) (rawLine : List Char) :
    Option ℕ × List ℕ × List ℕ :=
  let line := pyStrip rawLine
  let st1 :=
    match searchLit "Relative Time:" line with
    | some v => (some v, st.2.1, st.2.2)
    | none => st
  match searchLit "Time Period Total:" line with
  | some v =>
    match st1.1 with
    | some r => (none, st1.2.1 ++ [r], st1.2.2 ++ [v])
    | none => st1
  | none => st1

/-- `parse_overall_performance`: the paired lists
`(relative_times, processing_times)`. -/
def parse_overall_performance (lines : List (List Char)) : List ℕ × List ℕ :=
  (lines.foldl popStep (none, [], [])).2

/-! ## `inheritance_test/analye_and_plot.py` -/

namespace Inheritance

/-- Python `round(x, 2)` (round-half-to-even on the scaled value). -/
def round2 (x : ℚ) : ℚ :=
  let y := x * 100
  let f := ⌊y⌋
  let r := y - (f : ℚ)
  ((if r < 1 / 2 then f else if 1 / 2 < r then f + 1 else if f % 2 = 0 then f else f + 1 : ℤ) : ℚ)
    / 100

/-- The per-metric value lists accumulated by `parse_calibration_file`. -/
structure CalLists where
  cycle : List ℚ
  icache : List ℚ
  dcache_access : List ℚ
  dcache_miss : List ℚ

/-- One line of `parse_calibration_file` (lines 44–63): append the matched
value to the metric's list, with the same tolerant label patterns. -/
def calStep (st : CalLists) (rawLine : List Char) : CalLists :=
  let line := pyStrip rawLine
  match matchLabelTol "Cycle Count" line with
  | some v => { st with cycle := st.cycle ++ [(v : ℚ)] }
  | none =>
    match matchLabelTol "ICache Miss" line with
    | some v => { st with icache := st.icache ++ [(v : ℚ)] }
    | none =>
      match matchLabelTol "DCache Access" line with
      | some v => { st with dcache_access := st.dcache_access ++ [(v : ℚ)] }
      | none =>
        match matchLabelTol "DCache Miss" line with
        | some v => { st with dcache_miss := st.dcache_miss ++ [(v : ℚ)] }
        | none => st

/-- Reduce one metric's collected values:
`round(robust_average(vals), 2)` when any were collected, else `0.0`. -/
def calEntry (l : List ℚ) : ℚ :=
  if l.isEmpty then 0 else round2 (robust_average l)

/-- `parse_calibration_file(filename)`: the calibration profile of a
calibration log. -/
def parse_calibration_file (lines : List (List Char)) : Calibration :=
  let m := lines.foldl calStep ⟨[], [], [], []⟩
  ⟨calEntry m.cycle, calEntry m.icache, calEntry m.dcache_access, calEntry m.dcache_miss⟩

/-- The first `Total inversion cycles completed:\s+(\d+)` match, if any
(the `break` loop of `parse_inheritance_file`, lines 92–97). -/
def totalInversionsOf (lines : List (List Char)) : Option ℕ :=
  lines.findSome? fun l =>
    (dropLit "Total inversion cycles completed:".toList (pyStrip l)).bind (matchNumAfter true)

/-- `parse_inheritance_file(filename, calibration)`: the total-inversions
header plus the measurement records.  The measurement loop (lines 99–130)
is line-for-line the state machine of `parse_pmu_metrics`, including the
`if current_measurement is not None and current_measurement` end-of-file
truthiness check, so it is embedded by the same fold. -/
def parse_inheritance_file (lines : List (List Char)) (cal : Calibration) :
    Option ℕ × List PmuRecord :=
  (totalInversionsOf lines, parse_pmu_metrics lines cal)

/-- The calibration lookup of `main` (lines 326–338): parse the calibration
file when it exists, otherwise substitute the all-zero profile. -/
def getCalibration : Option (List (List Char)) → Calibration
  | some ls => parse_calibration_file ls
  | none => zeroCalibration

end Inheritance

/-! ## `task_synchronisation_preempt_test/analyse_and_plot.py` -/

namespace Preempt

/-- The four PMU fields of one profile section of `parse_sync_file`
(lines 64–89; the block-level header fields extracted alongside them are
not involved in any claim).  Note the cycle pattern `Cycle Count:\s*(\d+)`
carries no " Count" tolerance, unlike the other three. -/
structure SyncPmu where
  cycle_count : Option ℕ
  icache_miss : Option ℕ
  dcache_access : Option ℕ
  dcache_miss : Option ℕ
deriving DecidableEq, Repr

/-- The per-section metric extraction of `parse_sync_file`: each field is
an `re.search` over the section's text, `nan` (here `none`) when absent. -/
def parseSyncSection (s : List Char) : SyncPmu :=
  ⟨searchLit "Cycle Count:" s, searchLabelTol "ICache Miss" s,
   searchLabelTol "DCache Access" s, searchLabelTol "DCache Miss" s⟩

/-- `robust_average(values)` of this script: `np.nanmedian` — the median.
(Its callers pass lists already filtered of `nan` entries.) -/
def robust_average (values : List ℚ) : ℚ := medianQ values

/-- One summary-statistics dict of `summary_stats` (lines 134–148):
`none` models the all-`nan` dict returned for an empty (or all-`nan`)
input, which is also exactly when each individual field is `nan`. -/
structure SummaryStat where
  min : ℚ
  max : ℚ
  jitter : ℚ
  robust_avg : ℚ
deriving DecidableEq, Repr

def summary_stats (values : List ℚ) : Option SummaryStat :=
  if values.isEmpty then none
  else some ⟨listMin values, listMax values, listMax values - listMin values, medianQ values⟩

/-- One metric of `compute_summary` (lines 150–159): drop the `nan`
entries, then `summary_stats`. -/
def compute_summary_key (vals : List (Option ℕ)) : Option SummaryStat :=
  summary_stats ((vals.filterMap id).map fun n => (n : ℚ))

/-- One metric of the calibration averages of `main` (lines 200–210):
the robust average of the non-`nan` calibration values, `nan` when there
are none. -/
def calibAvgKey (vals : List (Option ℕ)) : Option ℚ :=
  let vs := (vals.filterMap id).map fun n => (n : ℚ)
  if vs.isEmpty then none else some (robust_average vs)

/-- One metric of `compute_corrected_summary` (lines 161–180): when the
calibration average is not `nan`, subtract it from min, max and
robust_avg — with **no clamping** — and keep the jitter; otherwise pass
the raw statistics through.  (`summary_stats` makes the four fields `nan`
all together, so the source's per-field `isnan` guards coincide with the
single `Option.map`.) -/
def correctedStat (raw : Option SummaryStat) (calib : Option ℚ) : Option SummaryStat :=
  match calib with
  | some c => raw.map fun s => ⟨s.min - c, s.max - c, s.jitter, s.robust_avg - c⟩
  | none => raw

/-- `compute_corrected_summary(raw_summary, calib_avgs)` over the keyed
summary dictionaries. -/
def compute_corrected_summary (raw_summary : List (String × Option SummaryStat))
    (calib_avgs : String → Option ℚ) : List (String × Option SummaryStat) :=
  raw_summary.map fun kv => (kv.1, correctedStat kv.2 (calib_avgs kv.1))

end Preempt

/-! ## `pmu_calibration/analyse.py` -/

namespace PmuCalib

/-- The anchored form of `cycle_re = re.compile(r"Cycle Count:\s*(\d+)")`. -/
def cycleMatchAt (l : List Char) : Option ℕ :=
  (dropLit "Cycle Count:".toList l).bind (matchNumAfter false)

/-- `cycle_re.finditer(contents)`: all matches of the cycle pattern in the
file's text.  (Scanning every start position equals `finditer`'s
non-overlapping scan for this pattern: a match's span can contain no other
occurrence of the literal `"Cycle Count:"` past its start, so no position
inside a span can begin a match.) -/
def findCycleCounts : List Char → List ℕ
  | [] => []
  | c :: t =>
    match cycleMatchAt (c :: t) with
    | some v => v :: findCycleCounts t
    | none => findCycleCounts t

/-- `statistics.mean`: raises `StatisticsError` on an empty list. -/
def statisticsMean (l : List ℕ) : Except String ℚ :=
  if l.isEmpty then Except.error "mean requires at least one data point"
  else Except.ok ((l.map fun n => (n : ℚ)).sum / (l.length : ℚ))

/-- `statistics.pvariance` (the square of `statistics.pstdev`, which also
raises on an empty list; the square root itself is irrational and plays no
part in any claim). -/
def pvariance (l : List ℕ) : Except String ℚ :=
  if l.isEmpty then Except.error "pvariance requires at least one data point"
  else
    let μ := (l.map fun n => (n : ℚ)).sum / (l.length : ℚ)
    Except.ok ((l.map fun n => ((n : ℚ) - μ) ^ 2).sum / (l.length : ℚ))

/-- The per-file statistics of the module-level loop (lines 42–58):
`mean = statistics.mean(counts)` then `stddev = statistics.pstdev(counts)`;
a raised `StatisticsError` propagates to the caller. -/
def calibRowStats (counts : List ℕ) : Except String (ℚ × ℚ) := do
  let m ← statisticsMean counts
  let v ← pvariance counts
  pure (m, v)

end PmuCalib

/-! ## Concrete inputs named by the claims -/

/-- The synthetic two-block input of the round-trip scenario (C1). -/
def c1Text : String :=
  "Profile Point:\nCycle Count: 100\nICache Miss: 10\nProfile Point:\nCycle Count: 200\nICache Miss: 20"

/-- The round-trip scenario's calibration `{cycle: 50.0, icache: 5.0}`. -/
def c1Calibration : Calibration := ⟨50, 5, 0, 0⟩

/-- A series with robust average 0 but nonzero mean: nine zeros and one
outlier (trim count `int(10 * 0.1) = 1` discards the outlier). -/
def c4Series : List ℚ := [0, 0, 0, 0, 0, 0, 0, 0, 0, 100]

/-! # Theorems

First the shared helper lemmas: the correction bridge (the corrected parse
is the raw parse with each stored value corrected), the delimiter
decomposition of the parse, and small facts about records.
-/

theorem correct_nonneg (c : ℚ) (v : ℕ) : 0 ≤ correct c v := le_max_right _ _

theorem correct_zero (n : ℕ) : correct 0 n = (n : ℚ) := by
  rw [correct, sub_zero]
  exact max_eq_left (Nat.cast_nonneg n)

theorem correctRecord_applyMetricLine (cal : Calibration) (r : RawRecord) (line : List Char) :
    applyMetricLine cal (correctRecord cal r) line = correctRecord cal (applyMetricLineRaw r line) := by
  unfold applyMetricLine applyMetricLineRaw
  cases h1 : matchLabelTol "Cycle Count" line <;>
    cases h2 : matchLabelTol "ICache Miss" line <;>
      cases h3 : matchLabelTol "DCache Access" line <;>
        cases h4 : matchLabelTol "DCache Miss" line <;>
          simp [correctRecord]

theorem correctRecord_isEmptyRec (cal : Calibration) (r : RawRecord) :
    (correctRecord cal r).isEmptyRec = r.isEmptyRec := by
  rcases r with ⟨c, i, a, m⟩
  cases c <;> cases i <;> cases a <;> cases m <;> rfl

theorem correctRecord_empty (cal : Calibration) :
    correctRecord cal emptyRawRecord = emptyRecord := rfl

theorem pmuStep_cast (cal : Calibration) (st : Option RawRecord × List RawRecord)
    (line : List Char) :
    pmuStep cal (castStateRaw cal st) line = castStateRaw cal (pmuStepRaw st line) := by
  rcases st with ⟨cur, out⟩
  by_cases hd : isDelim (pyStrip line)
  · cases cur <;> simp [pmuStep, pmuStepRaw, castStateRaw, hd, correctRecord_empty]
  · cases cur <;> simp [pmuStep, pmuStepRaw, castStateRaw, hd, correctRecord_applyMetricLine]

theorem foldl_pmu_cast (cal : Calibration) (lines : List (List Char))
    (st : Option RawRecord × List RawRecord) :
    lines.foldl (pmuStep cal) (castStateRaw cal st) = castStateRaw cal (lines.foldl pmuStepRaw st) := by
  induction lines generalizing st with
  | nil => rfl
  | cons l t ih => rw [List.foldl_cons, List.foldl_cons, pmuStep_cast, ih]

/-- The correction bridge: parsing with a calibration profile is parsing
raw and correcting each stored value. -/
theorem parse_pmu_eq_raw (lines : List (List Char)) (cal : Calibration) :
    parse_pmu_metrics lines cal = (parseRawBlocks lines).map (correctRecord cal) := by
  unfold parse_pmu_metrics parseRawBlocks
  have h0 : ((none : Option PmuRecord), ([] : List PmuRecord)) = castStateRaw cal (none, []) := rfl
  rw [h0, foldl_pmu_cast]
  rcases lines.foldl pmuStepRaw (none, []) with ⟨cur, out⟩
  cases cur with
  | none => simp [finalizePmu, finalizeRaw, castStateRaw]
  | some r =>
    simp only [finalizePmu, finalizeRaw, castStateRaw, Option.map_some']
    rw [correctRecord_isEmptyRec]
    by_cases he : r.isEmptyRec <;> simp [he]

theorem correctRecord_zero (r : RawRecord) : correctRecord zeroCalibration r = ratRecord r := by
  rcases r with ⟨c, i, a, m⟩
  cases c <;> cases i <;> cases a <;> cases m <;>
    simp [correctRecord, ratRecord, zeroCalibration, correct_zero]

theorem mem_vals (r : PmuRecord) (v : ℚ) :
    v ∈ r.vals ↔ r.cycle = some v ∨ r.icache = some v ∨ r.dcache_access = some v ∨
      r.dcache_miss = some v := by
  simp [PmuRecord.vals, List.mem_filterMap, eq_comm]

theorem parseBlock_append (cal : Calibration) (b : List (List Char)) (l : List Char) :
    parseBlock cal (b ++ [l]) = applyMetricLine cal (parseBlock cal b) l := by
  simp [parseBlock, List.foldl_append]

theorem foldl_blk_parse (cal : Calibration) (lines : List (List Char))
    (curB : Option (List (List Char))) (bs : List (List (List Char))) :
    lines.foldl (pmuStep cal) (curB.map (parseBlock cal), bs.map (parseBlock cal)) =
      ((lines.foldl blkStep (curB, bs)).1.map (parseBlock cal),
        (lines.foldl blkStep (curB, bs)).2.map (parseBlock cal)) := by
  induction lines generalizing curB bs with
  | nil => rfl
  | cons l t ih =>
    rw [List.foldl_cons, List.foldl_cons]
    have hstep : pmuStep cal (curB.map (parseBlock cal), bs.map (parseBlock cal)) l =
        ((blkStep (curB, bs) l).1.map (parseBlock cal),
          (blkStep (curB, bs) l).2.map (parseBlock cal)) := by
      by_cases hd : isDelim (pyStrip l)
      · cases curB <;> simp [pmuStep, blkStep, hd] <;> rfl
      · cases curB <;> simp [pmuStep, blkStep, hd, parseBlock_append]
    rw [hstep]
    rcases hb : blkStep (curB, bs) l with ⟨curB', bs'⟩
    exact ih curB' bs'

theorem applyMetricLine_nonempty (cal : Calibration) (r : PmuRecord) (l : List Char)
    (h : r.isEmptyRec = false ∨ recognizesMetric l = true) :
    (applyMetricLine cal r l).isEmptyRec = false := by
  unfold applyMetricLine
  cases h1 : matchLabelTol "Cycle Count" l <;>
    cases h2 : matchLabelTol "ICache Miss" l <;>
      cases h3 : matchLabelTol "DCache Access" l <;>
        cases h4 : matchLabelTol "DCache Miss" l <;>
          simp_all [PmuRecord.isEmptyRec, recognizesMetric]

theorem parseBlock_nonempty_aux (cal : Calibration) (b : List (List Char)) (r : PmuRecord)
    (h : r.isEmptyRec = false ∨ ∃ l ∈ b, recognizesMetric l = true) :
    (b.foldl (applyMetricLine cal) r).isEmptyRec = false := by
  induction b generalizing r with
  | nil =>
    rcases h with h | ⟨l, hl, _⟩
    · exact h
    · exact absurd hl (List.not_mem_nil l)
  | cons l t ih =>
    rw [List.foldl_cons]
    by_cases hr : recognizesMetric l
    · exact ih _ (Or.inl (applyMetricLine_nonempty cal r l (Or.inr hr)))
    · rcases h with h0 | ⟨x, hx, hrx⟩
      · exact ih _ (Or.inl (applyMetricLine_nonempty cal r l (Or.inl h0)))
      · rcases List.mem_cons.mp hx with rfl | hx'
        · exact absurd hrx hr
        · exact ih _ (Or.inr ⟨x, hx', hrx⟩)

theorem parseBlock_nonempty (cal : Calibration) (b : List (List Char))
    (h : ∃ l ∈ b, recognizesMetric l = true) :
    (parseBlock cal b).isEmptyRec = false :=
  parseBlock_nonempty_aux cal b emptyRecord (Or.inr h)

theorem foldl_blk_count (lines : List (List Char))
    (st : Option (List (List Char)) × List (List (List Char))) :
    (lines.foldl blkStep st).2.length + (if (lines.foldl blkStep st).1.isSome then 1 else 0) =
      st.2.length + (if st.1.isSome then 1 else 0) +
        lines.countP (fun l => isDelim (pyStrip l)) := by
  induction lines generalizing st with
  | nil => simp
  | cons l t ih =>
    rw [List.foldl_cons, ih, List.countP_cons]
    have hstep : (blkStep st l).2.length + (if (blkStep st l).1.isSome then 1 else 0) =
        st.2.length + (if st.1.isSome then 1 else 0) +
          (if isDelim (pyStrip l) then 1 else 0) := by
      rcases st with ⟨cur, bs⟩
      by_cases hd : isDelim (pyStrip l)
      · cases cur <;> simp [blkStep, hd]
      · cases cur <;> simp [blkStep, hd]
    rw [hstep]
    ring

theorem blocksOf_length (lines : List (List Char)) :
    (blocksOf lines).length = lines.countP (fun l => isDelim (pyStrip l)) := by
  have h := foldl_blk_count lines (none, [])
  unfold blocksOf
  rcases hf : lines.foldl blkStep (none, []) with ⟨cur, bs⟩
  rw [hf] at h
  cases cur <;> simp_all

/-! ## The claims -/

/-- **C9**: when the calibration file for an RTOS does not exist, the run
substitutes the all-zero calibration profile, and consequently every parsed
record of `parse_pmu_metrics` — and every measurement of
`parse_inheritance_file` run with that fallback profile — carries the raw
parsed values unchanged (`max(raw - 0, 0) = raw`). -/
theorem claim_C9_missing_file_fallback :
    Inheritance.getCalibration none = zeroCalibration ∧
    (∀ lines, parse_pmu_metrics lines zeroCalibration = (parseRawBlocks lines).map ratRecord) ∧
    (∀ lines, (Inheritance.parse_inheritance_file lines (Inheritance.getCalibration none)).2 =
      (parseRawBlocks lines).map ratRecord) := by
  have hparse : ∀ lines,
      parse_pmu_metrics lines zeroCalibration = (parseRawBlocks lines).map ratRecord := by
    intro lines
    rw [parse_pmu_eq_raw]
    exact List.map_congr_left fun r _ => correctRecord_zero r
  exact ⟨rfl, hparse, fun lines => hparse lines⟩

/-- **C2** (amended): every value of every record produced by the per-record
correcting parsers (`parse_pmu_metrics`, and the measurement sequence of
`parse_inheritance_file`) is ≥ 0, for every calibration profile — each
stored value is `max(raw - overhead, 0)`.  (The preempt variant's
`compute_corrected_summary` is *not* clamped; see the counterexample.) -/
theorem claim_C2_clamping_invariant :
    (∀ lines cal r, r ∈ parse_pmu_metrics lines cal → ∀ v ∈ r.vals, 0 ≤ v) ∧
    (∀ lines cal r, r ∈ (Inheritance.parse_inheritance_file lines cal).2 → ∀ v ∈ r.vals, 0 ≤ v) := by
  have hmain : ∀ lines cal r, r ∈ parse_pmu_metrics lines cal → ∀ v ∈ r.vals, 0 ≤ v := by
    intro lines cal r hr v hv
    rw [parse_pmu_eq_raw] at hr
    rcases List.mem_map.mp hr with ⟨r₀, _, rfl⟩
    rcases (mem_vals _ v).mp hv with h | h | h | h <;>
      · rcases Option.map_eq_some'.mp h with ⟨n, _, rfl⟩
        exact correct_nonneg _ n
  exact ⟨hmain, fun lines cal r hr => hmain lines cal r hr⟩

/-- Witness for C2: the record parsed from a block with raw cycle count 100
under overhead 40 carries the corrected value 60 ≥ 0. -/
theorem claim_C2_clamping_invariant_witness :
    (⟨some 60, none, none, none⟩ : PmuRecord) ∈
      parse_pmu_metrics (linesOfString "Profile Point:\nCycle Count: 100") ⟨40, 0, 0, 0⟩ ∧
    (0 : ℚ) ≤ 60 := by
  have hmem : (⟨some 60, none, none, none⟩ : PmuRecord) ∈
      parse_pmu_metrics (linesOfString "Profile Point:\nCycle Count: 100") ⟨40, 0, 0, 0⟩ := by
    have hraw : parseRawBlocks (linesOfString "Profile Point:\nCycle Count: 100") =
        [⟨some 100, none, none, none⟩] := by decide
    rw [parse_pmu_eq_raw, hraw]
    norm_num [correctRecord, correct, max_def]
  exact ⟨hmem,
    claim_C2_clamping_invariant.1 (linesOfString "Profile Point:\nCycle Count: 100")
      ⟨40, 0, 0, 0⟩ _ hmem 60 (by simp [PmuRecord.vals])⟩

/-- The counterexample to **C2** as stated: in the preempt variant, the
corrected summary subtracts the calibration average without clamping, so a
raw summary (min = max = robust_avg = 10, from the single parsed section
"Cycle Count: 10") corrected by calibration average 50 has the negative
value −40 < 0. -/
theorem claim_C2_counterexample :
    Preempt.compute_corrected_summary
        [("cycle_count",
          Preempt.compute_summary_key
            [(Preempt.parseSyncSection "Cycle Count: 10".toList).cycle_count])]
        (fun _ =>
          Preempt.calibAvgKey
            [(Preempt.parseSyncSection "Cycle Count: 50".toList).cycle_count]) =
      [("cycle_count", some ⟨-40, -40, 0, -40⟩)] ∧
    (-40 : ℚ) < 0 := by
  constructor
  · have h10 : (Preempt.parseSyncSection "Cycle Count: 10".toList).cycle_count = some 10 := by
      decide
    have h50 : (Preempt.parseSyncSection "Cycle Count: 50".toList).cycle_count = some 50 := by
      decide
    rw [h10, h50]
    have hkey : Preempt.compute_summary_key [some (10 : ℕ)] = some ⟨10, 10, 0, 10⟩ := by
      simp [Preempt.compute_summary_key, Preempt.summary_stats, listMin, listMax, medianQ,
        sortAsc, List.insertionSort, List.orderedInsert]
    have hcal : Preempt.calibAvgKey [some (50 : ℕ)] = some 50 := by
      simp [Preempt.calibAvgKey, Preempt.robust_average, medianQ, sortAsc, List.insertionSort]
    rw [hkey, hcal]
    simp only [Preempt.compute_corrected_summary, Preempt.correctedStat, List.map,
      Option.map_some']
    norm_num
  · norm_num

/-- **C3**: for a series of at most two samples, `robust_average` at the
default trim fraction 0.1 is the plain arithmetic mean — `int(n * 0.1) = 0`
removes nothing from either end. -/
theorem claim_C3_trimmed_mean_boundary (values : List ℚ) (h : values.length ≤ 2) :
    robust_average values = mean values := by
  unfold robust_average
  rcases values with _ | ⟨a, t⟩
  · simp [mean]
  · have hlen : 1 ≤ (a :: t).length := by simp
    have h10 : (a :: t).length / 10 = 0 := Nat.div_eq_of_lt (by omega)
    have hsort : (sortAsc (a :: t)).Perm (a :: t) :=
      List.perm_insertionSort (fun x y : ℚ => x ≤ y) (a :: t)
    rw [if_neg (by simp), h10]
    rw [if_neg (by push_cast; omega)]
    have hlen2 : (sortAsc (a :: t)).length = (a :: t).length := hsort.length_eq
    rw [List.drop_zero, Nat.mul_zero, Nat.sub_zero, ← hlen2, List.take_length]
    unfold mean
    rw [hsort.sum_eq, hsort.length_eq]

/-- Witness for C3: the two-sample series `[3, 7]`. -/
theorem claim_C3_trimmed_mean_boundary_witness :
    ([(3 : ℚ), 7].length ≤ 2) ∧ robust_average [(3 : ℚ), 7] = mean [(3 : ℚ), 7] :=
  ⟨by decide, claim_C3_trimmed_mean_boundary [3, 7] (by decide)⟩

/-- **C4** (amended): `jitter_pct` is 0 whenever its guard — the plain
arithmetic average returned by `compute_stats`, which is also the divisor —
is 0, and in particular when all values of the series are 0; the
divide-by-zero branch is unreachable.  (The guard is the plain mean, not
the robust average; see the counterexample.) -/
theorem claim_C4_jitter_zero_average :
    (∀ values, (compute_stats values).1 = 0 → (jitter_stats values).2 = 0) ∧
    (∀ values, (∀ v ∈ values, v = 0) → (jitter_stats values).2 = 0) := by
  have hmain : ∀ values, (compute_stats values).1 = 0 → (jitter_stats values).2 = 0 := by
    intro values h
    simp only [jitter_stats]
    rw [h]
    simp
  refine ⟨hmain, fun values h => hmain values ?_⟩
  rcases values with _ | ⟨a, t⟩
  · rfl
  · have hsum : (a :: t).sum = 0 := List.sum_eq_zero h
    simp [compute_stats, mean, hsum]

/-- Witness for C4: the all-zero series `[0, 0]`. -/
theorem claim_C4_jitter_zero_average_witness :
    (∀ v ∈ [(0 : ℚ), 0], v = 0) ∧ (jitter_stats [(0 : ℚ), 0]).2 = 0 :=
  ⟨by simp, claim_C4_jitter_zero_average.2 [0, 0] (by simp)⟩

/-- The counterexample to **C4** as stated: the series of nine zeros and
one 100 has robust average 0 (the trim removes the outlier), yet
`jitter_pct` is 1000, not 0 — the code guards and divides by the plain
mean (10 here), not by the robust average. -/
theorem claim_C4_counterexample :
    robust_average c4Series = 0 ∧ (jitter_stats c4Series).2 = 1000 ∧ (1000 : ℚ) ≠ 0 := by
  refine ⟨?_, ?_, by norm_num⟩
  · norm_num [c4Series, robust_average, sortAsc, List.insertionSort, List.orderedInsert, mean]
  · norm_num [c4Series, jitter_stats, compute_stats, mean, listMin, listMax]

/-- **C5** (amended): in the zero-fill aggregator of the context-switching
script, the empty series never raises: `compute_stats` returns `(0, 0, 0)`
and `robust_average` returns `0.0`.  (The `pmu_calibration` module-level
loop is not of this kind; see the counterexample.) -/
theorem claim_C5_empty_series :
    compute_stats ([] : List ℚ) = (0, 0, 0) ∧ robust_average ([] : List ℚ) = 0 :=
  ⟨rfl, rfl⟩

/-- The counterexample to **C5** as stated ("aggregation never raises, no
error propagates to the caller"): in `pmu_calibration/analyse.py`, a
calibration file whose text contains no cycle-count match yields the empty
series, on which `statistics.mean` raises a `StatisticsError` that
propagates out of the module-level loop. -/
theorem claim_C5_counterexample :
    PmuCalib.findCycleCounts "[Main] Starting PMU calibration Test.".toList = [] ∧
    PmuCalib.calibRowStats
        (PmuCalib.findCycleCounts "[Main] Starting PMU calibration Test.".toList) =
      Except.error "mean requires at least one data point" :=
  ⟨by decide, rfl⟩

/-- **C6**: when every delimiter-opened block contains at least one
recognized metric line, the parser emits exactly one record per block, in
block order — the output is the blockwise parse of the delimiter
decomposition, and its length is the number of delimiter lines. -/
theorem claim_C6_order_preservation (lines : List (List Char)) (cal : Calibration)
    (h : ∀ b ∈ blocksOf lines, ∃ l ∈ b, recognizesMetric l = true) :
    parse_pmu_metrics lines cal = (blocksOf lines).map (parseBlock cal) ∧
    (parse_pmu_metrics lines cal).length = lines.countP (fun l => isDelim (pyStrip l)) := by
  rcases hf : lines.foldl blkStep (none, []) with ⟨curB, bs⟩
  have hfold := foldl_blk_parse cal lines none []
  rw [hf] at hfold
  simp only [Option.map_none', List.map_nil] at hfold
  have heq : parse_pmu_metrics lines cal = (blocksOf lines).map (parseBlock cal) := by
    cases curB with
    | none =>
      have hbl : blocksOf lines = bs := by unfold blocksOf; rw [hf]
      unfold parse_pmu_metrics
      rw [hfold, hbl]
      simp [finalizePmu]
    | some b =>
      have hbl : blocksOf lines = bs ++ [b] := by unfold blocksOf; rw [hf]
      have hne : (parseBlock cal b).isEmptyRec = false :=
        parseBlock_nonempty cal b (h b (by rw [hbl]; exact List.mem_append_right _ (by simp)))
      unfold parse_pmu_metrics
      rw [hfold, hbl]
      simp [finalizePmu, hne]
  exact ⟨heq, by rw [heq, List.length_map, blocksOf_length]⟩

/-- Witness for C6: a three-block input, one metric line per block, parses
to the three blockwise records in order. -/
theorem claim_C6_order_preservation_witness :
    (∀ b ∈ blocksOf (linesOfString
        "Profile Point:\nCycle Count: 1\nProfile Entry:\nCycle Count: 2\nProfile Point:\nCycle Count: 3"),
      ∃ l ∈ b, recognizesMetric l = true) ∧
    parse_pmu_metrics (linesOfString
        "Profile Point:\nCycle Count: 1\nProfile Entry:\nCycle Count: 2\nProfile Point:\nCycle Count: 3")
        zeroCalibration =
      (blocksOf (linesOfString
        "Profile Point:\nCycle Count: 1\nProfile Entry:\nCycle Count: 2\nProfile Point:\nCycle Count: 3")).map
        (parseBlock zeroCalibration) ∧
    (parse_pmu_metrics (linesOfString
        "Profile Point:\nCycle Count: 1\nProfile Entry:\nCycle Count: 2\nProfile Point:\nCycle Count: 3")
        zeroCalibration).length = 3 :=
  ⟨by decide,
   (claim_C6_order_preservation _ zeroCalibration (by decide)).1,
   ((claim_C6_order_preservation _ zeroCalibration (by decide)).2).trans (by decide)⟩

/-- **C7**: a delimiter line met with a record pending emits the pending
record even when it is empty, while at end of file a pending record is
emitted only when nonempty — so a mid-stream empty block is kept and a
trailing empty block is dropped, as the two concrete parses show. -/
theorem claim_C7_empty_block_policy :
    (∀ cal out r line, isDelim (pyStrip line) = true →
      pmuStep cal (some r, out) line = (some emptyRecord, out ++ [r])) ∧
    (∀ r out, r.isEmptyRec = true → finalizePmu (some r, out) = out) ∧
    (∀ r out, r.isEmptyRec = false → finalizePmu (some r, out) = out ++ [r]) ∧
    parse_pmu_metrics (linesOfString "Profile Point:\nProfile Point:\nCycle Count: 5")
        zeroCalibration = [emptyRecord, ⟨some 5, none, none, none⟩] ∧
    parse_pmu_metrics (linesOfString "Profile Point:\nCycle Count: 5\nProfile Point:")
        zeroCalibration = [⟨some 5, none, none, none⟩] := by
  refine ⟨fun cal out r line h => by simp [pmuStep, h],
    fun r out h => by simp [finalizePmu, h],
    fun r out h => by simp [finalizePmu, h], ?_, ?_⟩
  · have hraw : parseRawBlocks (linesOfString "Profile Point:\nProfile Point:\nCycle Count: 5") =
        [emptyRawRecord, ⟨some 5, none, none, none⟩] := by decide
    rw [parse_pmu_eq_raw, hraw]
    simp [correctRecord_zero, ratRecord, emptyRawRecord, emptyRecord]
  · have hraw : parseRawBlocks (linesOfString "Profile Point:\nCycle Count: 5\nProfile Point:") =
        [⟨some 5, none, none, none⟩] := by decide
    rw [parse_pmu_eq_raw, hraw]
    simp [correctRecord_zero, ratRecord]

/-- Witness for C7: a delimiter line with the empty record pending emits
it; the same empty record pending at end of file is dropped. -/
theorem claim_C7_empty_block_policy_witness :
    isDelim (pyStrip "Profile Point:".toList) = true ∧
    pmuStep zeroCalibration (some emptyRecord, []) "Profile Point:".toList =
      (some emptyRecord, [emptyRecord]) ∧
    finalizePmu (some emptyRecord, []) = [] :=
  ⟨by decide,
   claim_C7_empty_block_policy.1 zeroCalibration [] emptyRecord "Profile Point:".toList (by decide),
   claim_C7_empty_block_policy.2.1 emptyRecord [] (by decide)⟩

theorem popStep_len (st : Option ℕ × List ℕ × List ℕ) (l : List Char)
    (h : st.2.1.length = st.2.2.length) :
    (popStep st l).2.1.length = (popStep st l).2.2.length := by
  rcases st with ⟨cur, rels, times⟩
  cases h1 : searchLit "Relative Time:" (pyStrip l) <;>
    cases h2 : searchLit "Time Period Total:" (pyStrip l) <;>
      cases cur <;> simp_all [popStep]

theorem foldl_pop_len (lines : List (List Char)) (st : Option ℕ × List ℕ × List ℕ)
    (h : st.2.1.length = st.2.2.length) :
    (lines.foldl popStep st).2.1.length = (lines.foldl popStep st).2.2.length := by
  induction lines generalizing st with
  | nil => exact h
  | cons l t ih => exact ih _ (popStep_len st l h)

/-- **C10**: `parse_overall_performance` returns lists of equal length: a
"Time Period Total" line with no pending "Relative Time" leaves the state
unchanged (the value is dropped), and with a pending relative time it
appends one element to each list and consumes the pending value (so each
relative time pairs with at most one total). -/
theorem claim_C10_pairing_invariant :
    (∀ lines, (parse_overall_performance lines).1.length =
      (parse_overall_performance lines).2.length) ∧
    (∀ rels times line v, searchLit "Relative Time:" (pyStrip line) = none →
      searchLit "Time Period Total:" (pyStrip line) = some v →
      popStep (none, rels, times) line = (none, rels, times)) ∧
    (∀ r rels times line v, searchLit "Relative Time:" (pyStrip line) = none →
      searchLit "Time Period Total:" (pyStrip line) = some v →
      popStep (some r, rels, times) line = (none, rels ++ [r], times ++ [v])) := by
  refine ⟨fun lines => foldl_pop_len lines (none, [], []) rfl,
    fun rels times line v h1 h2 => ?_, fun r rels times line v h1 h2 => ?_⟩ <;>
    simp [popStep, h1, h2]

/-- Witness for C10: on the line "Time Period Total: 5", the step with no
pending relative time drops the value, and with pending relative time 1 it
records the pair (1, 5). -/
theorem claim_C10_pairing_invariant_witness :
    popStep (none, [], []) "Time Period Total: 5".toList = (none, [], []) ∧
    popStep (some 1, [], []) "Time Period Total: 5".toList = (none, [1], [5]) :=
  ⟨claim_C10_pairing_invariant.2.1 [] [] "Time Period Total: 5".toList 5 (by decide) (by decide),
   claim_C10_pairing_invariant.2.2 1 [] [] "Time Period Total: 5".toList 5 (by decide) (by decide)⟩

/-- **C1**: the round-trip scenario.  Parsing the two-block synthetic input
with calibration `{cycle: 50, icache: 5}` yields the corrected cycle series
`[50, 150]` and icache series `[5, 15]`; on the cycle series the aggregator
gives mean 100, min 50, max 150, jitter_absolute 100 and median 100. -/
theorem claim_C1_round_trip :
    parse_pmu_metrics (linesOfString c1Text) c1Calibration =
      [⟨some 50, some 5, none, none⟩, ⟨some 150, some 15, none, none⟩] ∧
    (parse_pmu_metrics (linesOfString c1Text) c1Calibration).map (fun r => r.cycle.getD 0) =
      [50, 150] ∧
    (parse_pmu_metrics (linesOfString c1Text) c1Calibration).map (fun r => r.icache.getD 0) =
      [5, 15] ∧
    compute_stats [50, 150] = (100, 50, 150) ∧
    (jitter_stats [50, 150]).1 = 100 ∧
    medianQ [50, 150] = 100 := by
  have hraw : parseRawBlocks (linesOfString c1Text) =
      [⟨some 100, some 10, none, none⟩, ⟨some 200, some 20, none, none⟩] := by decide
  have hp : parse_pmu_metrics (linesOfString c1Text) c1Calibration =
      [⟨some 50, some 5, none, none⟩, ⟨some 150, some 15, none, none⟩] := by
    rw [parse_pmu_eq_raw, hraw]
    norm_num [correctRecord, correct, c1Calibration, max_def]
  refine ⟨hp, by rw [hp]; rfl, by rw [hp]; rfl, ?_, ?_, ?_⟩
  · norm_num [compute_stats, mean, listMin, listMax]
  · norm_num [jitter_stats, compute_stats, mean, listMin, listMax]
  · norm_num [medianQ, sortAsc, List.insertionSort, List.orderedInsert]

/-- The counterexample to **C8** as stated: the preempt variant's
`parse_sync_file` matches the cycle metric with `Cycle Count:\s*(\d+)` —
no tolerance for the extra word "Count" — so "Cycle Count Count: 7" does
not parse to 7 there (while "Cycle Count: 7" does). -/
theorem claim_C8_counterexample :
    (Preempt.parseSyncSection "Cycle Count Count: 7".toList).cycle_count = none ∧
    (Preempt.parseSyncSection "Cycle Count Count: 7".toList).cycle_count ≠ some 7 ∧
    (Preempt.parseSyncSection "Cycle Count: 7".toList).cycle_count = some 7 :=
  ⟨by decide, by decide, by decide⟩

/-- **C8** (amended): the tolerant per-line parsers (`parse_pmu_metrics`,
`parse_calibration_file`, `parse_inheritance_file`) accept the optional
extra word "Count" on all four labels — "Cycle Count: 7" and
"Cycle Count Count: 7" both give raw value 7 — and the preempt parser
keeps the tolerance for the ICache/DCache labels; but the cycle patterns
of `parse_sync_file` and of `pmu_calibration/analyse.py` accept only the
plain form. -/
theorem claim_C8_label_tolerance :
    matchLabelTol "Cycle Count" "Cycle Count: 7".toList = some 7 ∧
    matchLabelTol "Cycle Count" "Cycle Count Count: 7".toList = some 7 ∧
    matchLabelTol "ICache Miss" "ICache Miss: 7".toList = some 7 ∧
    matchLabelTol "ICache Miss" "ICache Miss Count: 7".toList = some 7 ∧
    matchLabelTol "DCache Access" "DCache Access: 7".toList = some 7 ∧
    matchLabelTol "DCache Access" "DCache Access Count: 7".toList = some 7 ∧
    matchLabelTol "DCache Miss" "DCache Miss: 7".toList = some 7 ∧
    matchLabelTol "DCache Miss" "DCache Miss Count: 7".toList = some 7 ∧
    (Inheritance.parse_calibration_file ["Cycle Count: 7".toList]).cycle = 7 ∧
    (Inheritance.parse_calibration_file ["Cycle Count Count: 7".toList]).cycle = 7 ∧
    (Preempt.parseSyncSection "ICache Miss Count: 7".toList).icache_miss = some 7 ∧
    (Preempt.parseSyncSection "DCache Access Count: 7".toList).dcache_access = some 7 ∧
    (Preempt.parseSyncSection "DCache Miss Count: 7".toList).dcache_miss = some 7 ∧
    PmuCalib.findCycleCounts "Cycle Count: 7".toList = [7] ∧
    PmuCalib.findCycleCounts "Cycle Count Count: 7".toList = [] := by
  have hcal : ∀ s : List Char, matchLabelTol "Cycle Count" (pyStrip s) = some 7 →
      (Inheritance.parse_calibration_file [s]).cycle = 7 := by
    intro s hs
    simp only [Inheritance.parse_calibration_file, List.foldl_cons, List.foldl_nil,
      Inheritance.calStep, hs]
    norm_num [Inheritance.calEntry, Inheritance.round2, robust_average, sortAsc,
      List.insertionSort, mean]
  refine ⟨by decide, by decide, by decide, by decide, by decide, by decide, by decide, by decide,
    hcal _ (by decide), hcal _ (by decide), by decide, by decide, by decide, by decide, by decide⟩

end BenchAnalysis
